import Mathlib

/-!
# Hough transform demo: the `App` component and the line-detection core

Part I embeds `src/cv/src/App.jsx`: the five `useState` cells of `App`, the
explainer stepper, `handleImageUpload` and the parts of the rendered view that
depend on the state.

Part II models the peak extractor and the pipeline orchestrator of the
line-detection core, which the component only reaches through
`POST http://localhost:5000/process-image`.
-/

namespace Hough

/-! ## Part I: `App.jsx` -/

/-- One entry of the `steps` array. -/
structure Step where
  title : String
  description : String
  image : String

/-- The `steps` array of `App`. -/
def steps : List Step :=
  [ { title := "Edge Detection",
      description := "The first step in the Hough Transform is edge detection. This process identifies points in the image where the brightness changes sharply, typically indicating edges of objects.",
      image := "https://images.unsplash.com/photo-1635070041078-e363dbe005cb?w=800&auto=format&fit=crop&q=60" },
    { title := "Parameter Space Mapping",
      description := "Each edge point is transformed into a sinusoidal curve in the parameter space (ρ,θ). This represents all possible lines that could pass through that point.",
      image := "https://images.unsplash.com/photo-1509228468518-180dd4864904?w=800&auto=format&fit=crop&q=60" },
    { title := "Accumulator Array",
      description := "The parameter space is discretized into a grid. Each cell accumulates 'votes' from the transformed curves. Peaks in this accumulator array represent likely lines in the original image.",
      image := "https://images.unsplash.com/photo-1635070041544-22beaf095c06?w=800&auto=format&fit=crop&q=60" },
    { title := "Line Detection",
      description := "Local maxima in the accumulator array are identified. Each maximum corresponds to parameters (ρ,θ) that define a line in the original image.",
      image := "https://images.unsplash.com/photo-1635070041078-e363dbe005cb?w=800&auto=format&fit=crop&q=60" } ]

/-- The state of `App`: one field per `useState` call, `null` as `none`. -/
structure AppState where
  selectedImage : Option String
  outputImage : Option String
  isProcessing : Bool
  error : Option String
  activeStep : Int

/-- The initial values passed to `useState`. -/
def AppState.initial : AppState :=
  { selectedImage := none, outputImage := none, isProcessing := false,
    error := none, activeStep := 0 }

/-- The updater of the Previous button: `(prev) => (prev > 0 ? prev - 1 : prev)`. -/
def previousStep (prev : Int) : Int :=
  if prev > 0 then prev - 1 else prev

/-- The updater of the Next button:
`(prev) => (prev < steps.length - 1 ? prev + 1 : prev)`. -/
def nextStep (prev : Int) : Int :=
  if prev < (steps.length : Int) - 1 then prev + 1 else prev

/-- A click in the explainer. The numbered buttons come from
`steps.map((_, index) => ...)`, so their index ranges over the positions of `steps`. -/
inductive Click where
  | select (index : Fin steps.length)
  | previous
  | next

/-- The `onClick` handlers of the explainer buttons. -/
def click (s : AppState) : Click → AppState
  | .select index => { s with activeStep := (index.val : Int) }
  | .previous => { s with activeStep := previousStep s.activeStep }
  | .next => { s with activeStep := nextStep s.activeStep }

/-- A finite sequence of explainer clicks, applied from left to right. -/
def clicks (s : AppState) (cs : List Click) : AppState :=
  cs.foldl click s

/-- The array read `steps[i]` for an integer `i`: `undefined` (here `none`)
outside the positions of the array. -/
def stepAt (i : Int) : Option Step :=
  if i < 0 then none else steps.get? i.toNat

/-- JavaScript `s.startsWith(p)`. -/
def startsWith (s p : String) : Bool :=
  p.toList.isPrefixOf s.toList

/-- The values `response.json()` can produce. -/
inductive JsValue where
  | undefined
  | null
  | boolean (b : Bool)
  | number (n : Int)
  | string (s : String)
  | array (items : List JsValue)
  | object (fields : List (String × JsValue))

/-- What a `try` block can throw. -/
inductive JsError where
  | typeError
  | syntaxError
  | networkError
  | error (message : String)

/-- The property read `data.processedImageUrl`: a `TypeError` on `null` and
`undefined`, the field of an object, and `undefined` on every other value. -/
def processedImageUrlOf : JsValue → Except JsError JsValue
  | .undefined => .error .typeError
  | .null => .error .typeError
  | .object fields => .ok ((fields.lookup "processedImageUrl").getD .undefined)
  | _ => .ok .undefined

/-- The base server URL of the template literal in `handleImageUpload`. -/
def baseServerUrl : String := "http://localhost:5000"

/-- The conditional expression of lines 61-63, for a string `url`:
`url.startsWith('http') ? url : 'http://localhost:5000' + url`. -/
def normalizeUrl (url : String) : String :=
  if startsWith url "http" then url else baseServerUrl ++ url

/-- Lines 61-63 on the value read from `data.processedImageUrl`: only a string
has a `startsWith` method, the call is a `TypeError` on anything else. -/
def fixUrl : JsValue → Except JsError String
  | .string url => .ok (normalizeUrl url)
  | _ => .error .typeError

/-- A `File` of the upload input. -/
structure File where
  name : String
  type : String
  bytes : List Nat

/-- The `change` event of the upload input: `event.target.files` may be `null`. -/
structure ChangeEvent where
  files : Option (List File)

/-- The expression `event.target.files?.[0]`. -/
def ChangeEvent.file (event : ChangeEvent) : Option File :=
  event.files.bind List.head?

/-- A request given to `fetch`: the URL, the method and the entries of the
`FormData` body. -/
structure Request where
  url : String
  method : String
  body : List (String × File)

/-- The outcome of `await response.json()`. -/
inductive BodyOutcome where
  | invalid
  | parsed (data : JsValue)

/-- The outcome of `await fetch(...)`: the promise rejects, or resolves to a
response with its `ok` flag and its body. -/
inductive FetchOutcome where
  | rejected
  | response (ok : Bool) (body : BodyOutcome)

/-- The surroundings of one upload: what the server answers to a request and
what the `FileReader` holds in `reader.result` when `onloadend` fires
(`null` after a read error). -/
structure Env where
  fetch : Request → FetchOutcome
  readAsDataURL : File → Option String

/-- The request built in lines 47-53. -/
def uploadRequest (file : File) : Request :=
  { url := "http://localhost:5000/process-image", method := "POST",
    body := [("image", file)] }

/-- Lines 50-63 of the `try` block: the value handed to `setOutputImage`, or
the exception thrown. -/
def processImage (env : Env) (file : File) : Except JsError String :=
  match env.fetch (uploadRequest file) with
  | .rejected => .error .networkError
  | .response ok body =>
    if !ok then .error (.error "Failed to process image")
    else
      match body with
      | .invalid => .error .syntaxError
      | .parsed data =>
        match processedImageUrlOf data with
        | .error e => .error e
        | .ok value => fixUrl value

/-- The result of running `handleImageUpload`: the state once the handler has
settled and the reader has fired `onloadend`, and the requests it sent. -/
structure Run where
  state : AppState
  requests : List Request

/-- The handler `handleImageUpload`, lines 34-73. -/
def handleImageUpload (env : Env) (event : ChangeEvent) (s : AppState) : Run :=
  match event.file with
  | none => { state := s, requests := [] }
  | some file =>
    let s1 := { s with isProcessing := true }
    let s2 := { s1 with error := none }
    let s3 := { s2 with selectedImage := env.readAsDataURL file }
    let s4 :=
      match processImage env file with
      | .ok processedImageUrl => { s3 with outputImage := some processedImageUrl }
      | .error _ => { s3 with error := some "Failed to process image. Please try again." }
    { state := { s4 with isProcessing := false }, requests := [uploadRequest file] }

/-- A sequence of uploads, each with its own surroundings, run one after the
other (the input is disabled while `isProcessing`). -/
def uploads (s : AppState) (us : List (Env × ChangeEvent)) : AppState :=
  us.foldl (fun st u => (handleImageUpload u.1 u.2 st).state) s

/-- JavaScript truthiness of a state cell holding `null` or a string. -/
def truthy : Option String → Bool
  | none => false
  | some v => v != ""

/-- The right-hand pane of the results grid, lines 250-262. -/
inductive DetectedPane where
  | image (src : String)
  | processingFailed
  deriving DecidableEq

/-- The output section, lines 224-275. -/
inductive OutputSection where
  | processing
  | placeholder
  | results (inputSrc : String) (detected : DetectedPane) (detectionResults : Option String)
  deriving DecidableEq

/-- The state-dependent parts of what `App` renders in the upload section and
in the output section. -/
structure View where
  uploadDisabled : Bool
  uploadLabel : String
  errorBanner : Option String
  selectedPreview : Option String
  output : OutputSection
  deriving DecidableEq

/-- The text of the Detection Results panel, lines 268-271. -/
def detectionResultsText : String :=
  "Image processed successfully. The red lines represent detected edges using the Hough Transform algorithm."

/-- The JSX of lines 178-276 as a function of the state. -/
def view (s : AppState) : View :=
  { uploadDisabled := s.isProcessing,
    uploadLabel := if s.isProcessing then "Processing..." else "Click to upload an image",
    errorBanner := if truthy s.error then s.error else none,
    selectedPreview := if truthy s.selectedImage then s.selectedImage else none,
    output :=
      if s.isProcessing then .processing
      else if !truthy s.selectedImage then .placeholder
      else .results (s.selectedImage.getD "")
        (if truthy s.outputImage then .image (s.outputImage.getD "") else .processingFailed)
        (if truthy s.outputImage then some detectionResultsText else none) }

/-- The view shows the Detection Results panel. -/
def View.showsDetectionResults (v : View) : Bool :=
  match v.output with
  | .results _ _ (some _) => true
  | _ => false

/-! ## Part II: the line-detection core

The component reaches the core only through the processing endpoint; its code is
not part of `App.jsx`. The peak extractor and the orchestrator are modelled from
their contracts; the floating-point stages are parameters of the pipeline. -/

/-- Modelled from the spec: the AccumulatorGrid of the data model, a flat array
of non-negative vote counts indexed by `(rhoBin, thetaBin)`; the code of the
accumulator is not in `App.jsx`. -/
structure AccumulatorGrid where
  rhoBins : Nat
  thetaBins : Nat
  cells : List Nat

/-- Modelled from the spec: the vote count of the cell `(rhoBin, thetaBin)` of
the flat array, which is missing from the sources. -/
def AccumulatorGrid.votes (grid : AccumulatorGrid) (rhoBin thetaBin : Nat) : Nat :=
  grid.cells.getD (rhoBin * grid.thetaBins + thetaBin) 0

/-- Modelled from the spec: a LineCandidate, a peak of the accumulator with its
vote count, kept by its bin indices (the conversion of the bin centres to pixels
and radians belongs to the renderer stage); its declaration is missing from the
sources. -/
structure LineCandidate where
  rhoBin : Nat
  thetaBin : Nat
  voteCount : Nat
  deriving DecidableEq

/-- Modelled from the spec: the cells of the grid in scan order, lower `rhoBin`
first and then lower `thetaBin`; the scan is missing from the sources. -/
def AccumulatorGrid.cellList (grid : AccumulatorGrid) : List LineCandidate :=
  (List.range grid.rhoBins).flatMap fun rhoBin =>
    (List.range grid.thetaBins).map fun thetaBin =>
      { rhoBin := rhoBin, thetaBin := thetaBin, voteCount := grid.votes rhoBin thetaBin }

/-- Modelled from the spec: the largest vote count of the grid, to which a
relative `minVotes` refers; missing from the sources. -/
def AccumulatorGrid.maxCell (grid : AccumulatorGrid) : Nat :=
  grid.cells.foldl max 0

/-- Modelled from the spec: the configuration surface of section 6, every field
named; the configuration structure is missing from the sources. -/
structure Config where
  blurKernelSize : Int
  gradientLowThreshold : ℚ
  gradientHighThreshold : ℚ
  thetaResolution : Int
  rhoStep : ℚ
  minVotes : ℚ
  minVotesRelative : Bool
  nmsRadius : Nat
  maxLines : Option Nat
  lineColor : Nat × Nat × Nat
  lineWidth : Nat

/-- Modelled from the spec: the error taxonomy of section 7, missing from the
sources. -/
inductive PipelineError where
  | invalidImage
  | invalidConfig
  | resourceExhaustion
  deriving DecidableEq

/-- Modelled from the spec: two cells are within the suppression window of each
other when both bin differences are below `nmsRadius`; the window test is
missing from the sources. -/
def withinWindow (nmsRadius : Nat) (a b : LineCandidate) : Bool :=
  decide (((a.rhoBin : Int) - (b.rhoBin : Int)).natAbs < nmsRadius) &&
    decide (((a.thetaBin : Int) - (b.thetaBin : Int)).natAbs < nmsRadius)

/-- Modelled from the spec: the vote threshold in force on a grid, `minVotes`
itself when absolute and that fraction of the largest cell when relative; the
threshold computation is missing from the sources. -/
def voteThreshold (grid : AccumulatorGrid) (config : Config) : ℚ :=
  if config.minVotesRelative then config.minVotes * (grid.maxCell : ℚ) else config.minVotes

/-- Modelled from the spec: the vote count of a cell exceeds `minVotes`; the
test is missing from the sources. -/
def exceedsMinVotes (grid : AccumulatorGrid) (config : Config) (c : LineCandidate) : Bool :=
  decide (voteThreshold grid config < (c.voteCount : ℚ))

/-- Modelled from the spec: a cell is a local maximum when no cell of the grid
within its suppression window has more votes; the test is missing from the
sources. -/
def isLocalMaximum (grid : AccumulatorGrid) (nmsRadius : Nat) (c : LineCandidate) : Bool :=
  grid.cellList.all fun d => !withinWindow nmsRadius c d || decide (d.voteCount ≤ c.voteCount)

/-- Modelled from the spec: the candidate peaks, the cells whose vote count
exceeds `minVotes` and which are local maxima, in scan order; the scan is
missing from the sources. -/
def candidatePeaks (grid : AccumulatorGrid) (config : Config) : List LineCandidate :=
  grid.cellList.filter fun c =>
    exceedsMinVotes grid config c && isLocalMaximum grid config.nmsRadius c

/-- Modelled from the spec: non-maximum suppression over the candidates in scan
order (ties go to the lower `rhoBin`, then the lower `thetaBin`): a cell within
the window of an accepted peak does not become a peak. `accepted` holds the
peaks accepted so far, latest first. Missing from the sources. -/
def suppress (nmsRadius : Nat) (accepted : List LineCandidate) :
    List LineCandidate → List LineCandidate
  | [] => accepted.reverse
  | c :: rest =>
    if accepted.any (fun p => withinWindow nmsRadius p c) then suppress nmsRadius accepted rest
    else suppress nmsRadius (c :: accepted) rest

/-- Modelled from the spec: the order of the output, descending vote count. -/
def moreVotes (a b : LineCandidate) : Prop := b.voteCount ≤ a.voteCount

instance : DecidableRel moreVotes := fun a b => Nat.decLe b.voteCount a.voteCount

instance : IsTotal LineCandidate moreVotes :=
  ⟨fun a b => Nat.le_total b.voteCount a.voteCount⟩

instance : IsTrans LineCandidate moreVotes :=
  ⟨fun _ _ _ hab hbc => Nat.le_trans hbc hab⟩

/-- Modelled from the spec: truncation to `maxLines` when it is configured. -/
def truncateTo (maxLines : Option Nat) (peaks : List LineCandidate) : List LineCandidate :=
  match maxLines with
  | none => peaks
  | some n => peaks.take n

/-- Modelled from the spec: `extractPeaks(grid, config)` of section 4.3, whose
code is missing from the sources: the candidate peaks, non-maximum suppression,
the output ordered by descending vote count (candidates with equal counts keep
their scan order), truncated to `maxLines`. -/
def extractPeaks (grid : AccumulatorGrid) (config : Config) : List LineCandidate :=
  truncateTo config.maxLines
    (List.insertionSort moreVotes (suppress config.nmsRadius [] (candidatePeaks grid config)))

/-- Modelled from the spec: an Image, a grid of pixels of 1 or 3 channels with
values in 0..255; missing from the sources. -/
structure Image where
  width : Nat
  height : Nat
  channels : Nat
  pixels : List Nat
  deriving DecidableEq

/-- Modelled from the spec: an EdgeMap, a grid of booleans; missing from the
sources. -/
structure EdgeMap where
  width : Nat
  height : Nat
  edges : List Bool

/-- Modelled from the spec: a DetectedLine, two endpoints clipped to the image
bounds; missing from the sources. -/
structure DetectedLine where
  x1 : ℚ
  y1 : ℚ
  x2 : ℚ
  y2 : ℚ
  deriving DecidableEq

/-- Modelled from the spec: a DetectionResult, the rendered image and the
DetectedLines by descending vote count; missing from the sources. -/
structure DetectionResult where
  image : Image
  lines : List DetectedLine

/-- Modelled from the spec: the stages of the pipeline whose arithmetic is
floating point, taken as given functions of the image and of their own
configuration fields: the preprocessor of 4.1, the accumulator of 4.2, the two
clipped endpoints of one candidate (none for a degenerate line) and the drawing
of 4.4.
Their code is missing from the sources. -/
structure Stages where
  toEdgeMap : Image → Int → ℚ → ℚ → Except PipelineError EdgeMap
  vote : EdgeMap → Int → ℚ → Except PipelineError AccumulatorGrid
  toDetectedLine : Image → Int → ℚ → LineCandidate → Option DetectedLine
  render : Image → List DetectedLine → Nat × Nat × Nat → Nat → Image

/-- Modelled from the spec: the configuration check of 4.5 and 7: negative
thresholds, zero or negative resolution and step, and a low threshold above the
high one are invalid. Missing from the sources. -/
def validateConfig (config : Config) : Except PipelineError Unit :=
  if config.gradientLowThreshold < 0 ∨ config.gradientHighThreshold < 0 ∨ config.minVotes < 0
      ∨ config.thetaResolution ≤ 0 ∨ config.rhoStep ≤ 0
      ∨ config.gradientHighThreshold < config.gradientLowThreshold then
    .error .invalidConfig
  else .ok ()

/-- Modelled from the spec: `detectLines(image, config)` of section 4.5, whose
code is missing from the sources: validation, then the four stages strictly in
sequence, the first failure propagated. -/
def detectLines (stages : Stages) (image : Image) (config : Config) :
    Except PipelineError DetectionResult :=
  match validateConfig config with
  | .error e => .error e
  | .ok () =>
    match stages.toEdgeMap image config.blurKernelSize config.gradientLowThreshold
        config.gradientHighThreshold with
    | .error e => .error e
    | .ok edgeMap =>
      match stages.vote edgeMap config.thetaResolution config.rhoStep with
      | .error e => .error e
      | .ok grid =>
        let lines := (extractPeaks grid config).filterMap
          (stages.toDetectedLine image config.thetaResolution config.rhoStep)
        .ok { image := stages.render image lines config.lineColor config.lineWidth,
              lines := lines }

/-! ## The words of the interface contract

The notions below are those the contract of the component is written in; they are
not computed by `App.jsx`. -/

/-- A character allowed after the first one of a URL scheme (RFC 3986, 3.1). -/
def isSchemeChar (c : Char) : Bool :=
  c.isAlphanum || c == '+' || c == '-' || c == '.'

/-- A string is an absolute URL when it starts with a scheme and a colon; any
other string is a relative path. -/
def isAbsoluteUrl (url : String) : Bool :=
  match url.toList with
  | [] => false
  | c :: rest => c.isAlpha && (rest.dropWhile isSchemeChar).head? == some ':'

/-- The URL the contract asks for: an absolute URL unchanged, a relative path
with the base server URL in front. -/
def expectedUrl (url : String) : String :=
  if isAbsoluteUrl url then url else baseServerUrl ++ url

/-- The file is a PNG or JPG image, by its MIME type. -/
def isPngOrJpg (file : File) : Bool :=
  file.type == "image/png" || file.type == "image/jpeg"

/-- The file passes the `accept="image/*"` filter of the upload input. -/
def acceptedByInput (file : File) : Bool :=
  startsWith file.type "image/"

/-- The processing request fails: the fetch throws, the response is not OK, or
the reading of the JSON body throws. -/
def requestFails : FetchOutcome → Bool
  | .rejected => true
  | .response ok body =>
    !ok || (match body with
            | .invalid => true
            | .parsed _ => false)

/-- A server that answers every request with the given outcome, and a reader
that yields the given data URL. -/
def constEnv (outcome : FetchOutcome) (dataUrl : Option String) : Env :=
  { fetch := fun _ => outcome, readAsDataURL := fun _ => dataUrl }

/-- An OK response whose JSON body is `{"processedImageUrl": url}`. -/
def okResponse (url : String) : FetchOutcome :=
  .response true (.parsed (.object [("processedImageUrl", .string url)]))

/-- A change event selecting one file. -/
def selectFile (file : File) : ChangeEvent :=
  { files := some [file] }

/-- A PNG file. -/
def pngFile : File :=
  { name := "road.png", type := "image/png", bytes := [137, 80, 78, 71] }

/-- A GIF file. -/
def gifFile : File :=
  { name := "road.gif", type := "image/gif", bytes := [71, 73, 70, 56] }

/-- A JPG file. -/
def jpgFile : File :=
  { name := "fence.jpg", type := "image/jpeg", bytes := [255, 216, 255, 224] }

/-- An upload of `pngFile` that the server answers with an annotated image,
followed by an upload of `jpgFile` that the server answers with an error
status. -/
def successThenFailure : List (Env × ChangeEvent) :=
  [ (constEnv (okResponse "/static/out.png") (some "data:image/png;base64,iVBORw=="),
      selectFile pngFile),
    (constEnv (.response false .invalid) (some "data:image/jpeg;base64,/9j/4A=="),
      selectFile jpgFile) ]

/-- A server that answers every request OK with the annotated image inlined as
the data URL `data:image/png;base64,AAAA`, and a reader that yields the data URL
of the selected file. -/
def dataUrlReply : Env :=
  constEnv (okResponse "data:image/png;base64,AAAA") (some "data:image/png;base64,iVBORw==")

/-- A 3 by 4 accumulator with a plateau of 5 votes and a plateau of 7 votes. -/
def demoGrid : AccumulatorGrid :=
  { rhoBins := 3, thetaBins := 4, cells := [1, 5, 5, 0, 2, 5, 1, 0, 0, 0, 7, 7] }

/-- A configuration with an absolute `minVotes` of 1 and a suppression radius of 2. -/
def demoConfig : Config :=
  { blurKernelSize := 5, gradientLowThreshold := 50, gradientHighThreshold := 100,
    thetaResolution := 180, rhoStep := 1, minVotes := 1, minVotesRelative := false,
    nmsRadius := 2, maxLines := none, lineColor := (255, 0, 0), lineWidth := 2 }

/-- A 2 by 2 grayscale image. -/
def demoImage : Image :=
  { width := 2, height := 2, channels := 1, pixels := [0, 255, 255, 0] }

/-- Stages that vote `demoGrid` for every image and draw nothing. -/
def demoStages : Stages :=
  { toEdgeMap := fun image _ _ _ =>
      .ok { width := image.width, height := image.height, edges := image.pixels.map (· != 0) },
    vote := fun _ _ _ => .ok demoGrid,
    toDetectedLine := fun _ _ _ c =>
      some { x1 := 0, y1 := (c.rhoBin : ℚ), x2 := 2, y2 := (c.rhoBin : ℚ) },
    render := fun image _ _ _ => image }

/-! ## Results on `App.jsx` -/

theorem click_activeStep_range (s : AppState) (c : Click)
    (h : 0 ≤ s.activeStep ∧ s.activeStep < (steps.length : Int)) :
    0 ≤ (click s c).activeStep ∧ (click s c).activeStep < (steps.length : Int) := by
  have hlen : (steps.length : Int) = 4 := by decide
  rw [hlen] at h ⊢
  cases c with
  | select index =>
    have hi := index.isLt
    simp only [click]
    omega
  | previous =>
    simp only [click, previousStep]
    split <;> omega
  | next =>
    simp only [click, nextStep, hlen]
    split <;> omega

theorem clicks_activeStep_range (cs : List Click) (s : AppState)
    (h : 0 ≤ s.activeStep ∧ s.activeStep < (steps.length : Int)) :
    0 ≤ (clicks s cs).activeStep ∧ (clicks s cs).activeStep < (steps.length : Int) := by
  induction cs generalizing s with
  | nil => simpa [clicks] using h
  | cons c cs ih =>
    have := ih (click s c) (click_activeStep_range s c h)
    simpa [clicks] using this

theorem stepAt_isSome_of_range (i : Int) (h : 0 ≤ i ∧ i < (steps.length : Int)) :
    (stepAt i).isSome = true := by
  have hlen : (steps.length : Int) = 4 := by decide
  rw [hlen] at h
  obtain ⟨n, rfl⟩ := Int.eq_ofNat_of_zero_le h.1
  have hn : n < 4 := by omega
  interval_cases n <;> rfl

/-- C8: after every finite sequence of explainer clicks from the initial state,
`activeStep` is an integer in `0..steps.length-1` and `steps[activeStep]` is a defined
step; Previous leaves step 0 unchanged and otherwise subtracts one, Next
leaves the last step unchanged and otherwise adds one. -/
theorem activeStep_always_valid (cs : List Click) :
    0 ≤ (clicks AppState.initial cs).activeStep
    ∧ (clicks AppState.initial cs).activeStep ≤ (steps.length : Int) - 1
    ∧ (stepAt (clicks AppState.initial cs).activeStep).isSome = true
    ∧ (click (clicks AppState.initial cs) .previous).activeStep =
        (if (clicks AppState.initial cs).activeStep = 0 then (clicks AppState.initial cs).activeStep
         else (clicks AppState.initial cs).activeStep - 1)
    ∧ (click (clicks AppState.initial cs) .next).activeStep =
        (if (clicks AppState.initial cs).activeStep = (steps.length : Int) - 1
         then (clicks AppState.initial cs).activeStep
         else (clicks AppState.initial cs).activeStep + 1) := by
  have hlen : (steps.length : Int) = 4 := by decide
  have h := clicks_activeStep_range cs AppState.initial (by decide)
  have hs := stepAt_isSome_of_range _ h
  rw [hlen] at h ⊢
  refine ⟨h.1, by omega, hs, ?_, ?_⟩
  · simp only [click, previousStep]
    split <;> split <;> omega
  · simp only [click, nextStep, hlen]
    split <;> split <;> omega

theorem handleImageUpload_of_error (env : Env) (event : ChangeEvent) (s : AppState)
    (file : File) (e : JsError) (hfile : event.file = some file)
    (herr : processImage env file = .error e) :
    (handleImageUpload env event s).state =
      { s with selectedImage := env.readAsDataURL file, isProcessing := false,
               error := some "Failed to process image. Please try again." } := by
  simp only [handleImageUpload, hfile, herr]

theorem handleImageUpload_of_ok (env : Env) (event : ChangeEvent) (s : AppState)
    (file : File) (url : String) (hfile : event.file = some file)
    (hok : processImage env file = .ok url) :
    (handleImageUpload env event s).state =
      { s with selectedImage := env.readAsDataURL file, isProcessing := false,
               error := none, outputImage := some url } := by
  simp only [handleImageUpload, hfile, hok]

theorem processImage_error_of_requestFails (env : Env) (file : File)
    (hfail : requestFails (env.fetch (uploadRequest file)) = true) :
    ∃ e, processImage env file = .error e := by
  unfold processImage
  cases hf : env.fetch (uploadRequest file) with
  | rejected => exact ⟨_, rfl⟩
  | response ok body =>
    rw [hf] at hfail
    cases ok with
    | false => exact ⟨_, rfl⟩
    | true =>
      cases body with
      | invalid => exact ⟨_, rfl⟩
      | parsed data => simp [requestFails] at hfail

/-- C2: for every selected file, when the processing request fails (the fetch
throws, the response is not OK, or reading the JSON body throws),
`handleImageUpload` ends with the error message set, `isProcessing` false and
`outputImage` as it was before the upload. -/
theorem upload_failure_sets_error (env : Env) (event : ChangeEvent) (s : AppState) (file : File)
    (hfile : event.file = some file)
    (hfail : requestFails (env.fetch (uploadRequest file)) = true) :
    (handleImageUpload env event s).state.error = some "Failed to process image. Please try again."
    ∧ (handleImageUpload env event s).state.isProcessing = false
    ∧ (handleImageUpload env event s).state.outputImage = s.outputImage := by
  obtain ⟨e, he⟩ := processImage_error_of_requestFails env file hfail
  rw [handleImageUpload_of_error env event s file e hfile he]
  exact ⟨rfl, rfl, rfl⟩

/-- The failure case on a PNG upload answered with an error status, from a state
that already holds an output image. -/
theorem upload_failure_sets_error_witness :
    (selectFile pngFile).file = some pngFile
    ∧ requestFails ((constEnv (.response false .invalid) (some "data:image/png;base64,iVBORw==")).fetch
        (uploadRequest pngFile)) = true
    ∧ ((handleImageUpload (constEnv (.response false .invalid) (some "data:image/png;base64,iVBORw=="))
          (selectFile pngFile)
          { AppState.initial with outputImage := some "http://localhost:5000/static/old.png" }).state.error
        = some "Failed to process image. Please try again."
      ∧ (handleImageUpload (constEnv (.response false .invalid) (some "data:image/png;base64,iVBORw=="))
          (selectFile pngFile)
          { AppState.initial with outputImage := some "http://localhost:5000/static/old.png" }).state.isProcessing
        = false
      ∧ (handleImageUpload (constEnv (.response false .invalid) (some "data:image/png;base64,iVBORw=="))
          (selectFile pngFile)
          { AppState.initial with outputImage := some "http://localhost:5000/static/old.png" }).state.outputImage
        = some "http://localhost:5000/static/old.png") :=
  ⟨rfl, rfl, upload_failure_sets_error _ _ _ pngFile rfl rfl⟩

/-- An upload whose response is OK and carries a string `processedImageUrl`
sends the file in one request and ends with `error` null, `isProcessing` false
and `outputImage` holding the value of lines 61-63; that value is the URL the
contract asks for exactly when the `startsWith('http')` test agrees with the
string being an absolute URL. -/
theorem handleImageUpload_of_ok_response (env : Env) (event : ChangeEvent) (s : AppState)
    (file : File) (data : JsValue) (url : String)
    (hfile : event.file = some file)
    (hresponse : env.fetch (uploadRequest file) = .response true (.parsed data))
    (hurl : processedImageUrlOf data = .ok (.string url)) :
    (handleImageUpload env event s).requests = [uploadRequest file]
    ∧ (handleImageUpload env event s).state.error = none
    ∧ (handleImageUpload env event s).state.isProcessing = false
    ∧ (handleImageUpload env event s).state.outputImage
        = some (if startsWith url "http" then url else baseServerUrl ++ url)
    ∧ (startsWith url "http" = isAbsoluteUrl url →
        (handleImageUpload env event s).state.outputImage = some (expectedUrl url)) := by
  have hok : processImage env file = .ok (normalizeUrl url) := by
    simp [processImage, hresponse, hurl, fixUrl]
  have hreq : (handleImageUpload env event s).requests = [uploadRequest file] := by
    simp only [handleImageUpload, hfile]
  rw [handleImageUpload_of_ok env event s file _ hfile hok]
  refine ⟨hreq, rfl, rfl, rfl, fun hagree => ?_⟩
  simp only [normalizeUrl, expectedUrl, hagree]

/-- C3: on a PNG upload whose response is OK and carries the string
`data:image/png;base64,AAAA` as `processedImageUrl`, the handler sends the file
and ends with `error` null and `isProcessing` false, but `outputImage` is not
the normalised URL of the response (the absolute URL itself): it is
`http://localhost:5000data:image/png;base64,AAAA`, and the view shows that
address as the detected-lines image of the submitted file. -/
theorem upload_success_stores_unnormalised_url :
    (selectFile pngFile).file = some pngFile
    ∧ dataUrlReply.fetch (uploadRequest pngFile)
        = .response true
            (.parsed (.object [("processedImageUrl", .string "data:image/png;base64,AAAA")]))
    ∧ processedImageUrlOf (.object [("processedImageUrl", .string "data:image/png;base64,AAAA")])
        = .ok (.string "data:image/png;base64,AAAA")
    ∧ (handleImageUpload dataUrlReply (selectFile pngFile) AppState.initial).requests
        = [{ url := "http://localhost:5000/process-image", method := "POST",
             body := [("image", pngFile)] }]
    ∧ (handleImageUpload dataUrlReply (selectFile pngFile) AppState.initial).state.error = none
    ∧ (handleImageUpload dataUrlReply (selectFile pngFile) AppState.initial).state.isProcessing
        = false
    ∧ expectedUrl "data:image/png;base64,AAAA" = "data:image/png;base64,AAAA"
    ∧ (handleImageUpload dataUrlReply (selectFile pngFile) AppState.initial).state.outputImage
        = some "http://localhost:5000data:image/png;base64,AAAA"
    ∧ (handleImageUpload dataUrlReply (selectFile pngFile) AppState.initial).state.outputImage
        ≠ some (expectedUrl "data:image/png;base64,AAAA")
    ∧ (view (handleImageUpload dataUrlReply (selectFile pngFile) AppState.initial).state).output
        = .results "data:image/png;base64,iVBORw=="
            (.image "http://localhost:5000data:image/png;base64,AAAA")
            (some detectionResultsText) := by
  refine ⟨rfl, rfl, rfl, rfl, rfl, rfl, by decide, by decide, by decide, by decide⟩

theorem normalizeUrl_of_slash (rest : List Char) :
    normalizeUrl (String.mk ('/' :: rest)) = baseServerUrl ++ String.mk ('/' :: rest)
    ∧ expectedUrl (String.mk ('/' :: rest)) = baseServerUrl ++ String.mk ('/' :: rest) := by
  constructor
  · simp [normalizeUrl, startsWith, List.isPrefixOf]
  · simp [expectedUrl, isAbsoluteUrl]

/-- C1: on the relative path `httpdocs/out.png` returned in a successful
response the handler stores the string unchanged, without the base server URL
in front; on the absolute URL `data:image/png;base64,AAAA` it stores the base
server URL followed by the string. -/
theorem normalizeUrl_misses_relative_path :
    isAbsoluteUrl "httpdocs/out.png" = false
    ∧ (handleImageUpload (constEnv (okResponse "httpdocs/out.png") none) (selectFile pngFile)
        AppState.initial).state.outputImage = some "httpdocs/out.png"
    ∧ expectedUrl "httpdocs/out.png" = "http://localhost:5000httpdocs/out.png"
    ∧ isAbsoluteUrl "data:image/png;base64,AAAA" = true
    ∧ (handleImageUpload (constEnv (okResponse "data:image/png;base64,AAAA") none)
        (selectFile pngFile) AppState.initial).state.outputImage
      = some "http://localhost:5000data:image/png;base64,AAAA"
    ∧ expectedUrl "data:image/png;base64,AAAA" = "data:image/png;base64,AAAA" := by
  refine ⟨by decide, by decide, by decide, by decide, by decide, by decide⟩

/-- C4, as stated, fails: a GIF file passes the `accept="image/*"` filter of the
input, is neither PNG nor JPG, and `handleImageUpload` submits it to the
processing endpoint. -/
theorem gif_file_is_submitted :
    ¬ (∀ (env : Env) (event : ChangeEvent) (s : AppState) (file : File),
        event.file = some file →
        (handleImageUpload env event s).requests ≠ [] → isPngOrJpg file = true) := by
  intro h
  have := h (constEnv .rejected none) (selectFile gifFile) AppState.initial gifFile rfl
    (by simp [handleImageUpload, selectFile, ChangeEvent.file])
  exact absurd this (by decide)

/-- C4, amended: `handleImageUpload` submits every chosen file, whatever its
type, in one POST request to the processing endpoint with the file in the form
field `image`; it sends nothing when no file was chosen. -/
theorem upload_submits_every_file (env : Env) (event : ChangeEvent) (s : AppState) :
    (handleImageUpload env event s).requests =
      match event.file with
      | none => []
      | some file =>
        [{ url := "http://localhost:5000/process-image", method := "POST",
           body := [("image", file)] }] := by
  unfold handleImageUpload
  cases event.file <;> rfl

/-- C5: after an upload that succeeds and a second upload that fails, the view
shows the Detection Results panel with its success text together with the error
banner, although the most recently completed upload failed. -/
theorem detection_results_shown_after_failure :
    requestFails ((constEnv (.response false .invalid) (some "data:image/jpeg;base64,/9j/4A==")).fetch
        (uploadRequest jpgFile)) = true
    ∧ (uploads AppState.initial successThenFailure).error
        = some "Failed to process image. Please try again."
    ∧ (uploads AppState.initial successThenFailure).outputImage
        = some "http://localhost:5000/static/out.png"
    ∧ (view (uploads AppState.initial successThenFailure)).showsDetectionResults = true
    ∧ (view (uploads AppState.initial successThenFailure)).output
        = .results "data:image/jpeg;base64,/9j/4A=="
            (.image "http://localhost:5000/static/out.png")
            (some detectionResultsText)
    ∧ (view (uploads AppState.initial successThenFailure)).errorBanner
        = some "Failed to process image. Please try again." := by
  refine ⟨by decide, by decide, by decide, by decide, by decide, by decide⟩

/-! ## Results on the line-detection core -/

theorem withinWindow_comm (r : Nat) (a b : LineCandidate) :
    withinWindow r a b = withinWindow r b a := by
  have h1 : ((a.rhoBin : Int) - (b.rhoBin : Int)).natAbs
      = ((b.rhoBin : Int) - (a.rhoBin : Int)).natAbs := by omega
  have h2 : ((a.thetaBin : Int) - (b.thetaBin : Int)).natAbs
      = ((b.thetaBin : Int) - (a.thetaBin : Int)).natAbs := by omega
  simp only [withinWindow, h1, h2]

theorem withinWindow_iff_abs (r : Nat) (a b : LineCandidate) :
    withinWindow r a b = true ↔
      |(a.rhoBin : Int) - (b.rhoBin : Int)| < (r : Int)
      ∧ |(a.thetaBin : Int) - (b.thetaBin : Int)| < (r : Int) := by
  simp only [withinWindow, Bool.and_eq_true, decide_eq_true_eq, Int.abs_eq_natAbs]
  omega

/-- Suppression keeps the accepted peaks pairwise outside each other's window. -/
theorem suppress_pairwise (r : Nat) (l accepted : List LineCandidate)
    (h : accepted.Pairwise (fun a b => withinWindow r a b = false)) :
    (suppress r accepted l).Pairwise (fun a b => withinWindow r a b = false) := by
  induction l generalizing accepted with
  | nil =>
    simp only [suppress]
    rw [List.pairwise_reverse]
    exact h.imp (fun {a b} hab => by rw [withinWindow_comm]; exact hab)
  | cons c rest ih =>
    simp only [suppress]
    split
    · exact ih accepted h
    · rename_i hany
      apply ih
      rw [List.pairwise_cons]
      refine ⟨fun p hp => ?_, h⟩
      rw [withinWindow_comm]
      cases hw : withinWindow r p c with
      | false => rfl
      | true => exact absurd (List.any_eq_true.mpr ⟨p, hp, hw⟩) hany

theorem extractPeaks_pairwise (grid : AccumulatorGrid) (config : Config) :
    (extractPeaks grid config).Pairwise
      (fun a b => withinWindow config.nmsRadius a b = false) := by
  have hs := suppress_pairwise config.nmsRadius (candidatePeaks grid config) [] List.Pairwise.nil
  have hsym : ∀ {x y : LineCandidate}, withinWindow config.nmsRadius x y = false →
      withinWindow config.nmsRadius y x = false := by
    intro x y hxy
    rw [withinWindow_comm]; exact hxy
  have hsorted := ((List.perm_insertionSort moreVotes _).pairwise_iff hsym).mpr hs
  unfold extractPeaks truncateTo
  cases config.maxLines with
  | none => exact hsorted
  | some n => exact hsorted.sublist (List.take_sublist _ _)

/-- C6: for every accumulator grid and configuration, no two distinct candidates
returned by `extractPeaks` have both bin differences below `nmsRadius`. -/
theorem extractPeaks_no_duplicates (grid : AccumulatorGrid) (config : Config) (i j : Nat)
    (hi : i < (extractPeaks grid config).length) (hj : j < (extractPeaks grid config).length)
    (hne : i ≠ j) :
    ¬ (|(((extractPeaks grid config)[i]).rhoBin : Int)
          - (((extractPeaks grid config)[j]).rhoBin : Int)| < (config.nmsRadius : Int)
       ∧ |(((extractPeaks grid config)[i]).thetaBin : Int)
          - (((extractPeaks grid config)[j]).thetaBin : Int)| < (config.nmsRadius : Int)) := by
  have hp := List.pairwise_iff_getElem.mp (extractPeaks_pairwise grid config)
  rw [← withinWindow_iff_abs]
  rcases Nat.lt_or_gt_of_ne hne with hlt | hgt
  · simp [hp i j hi hj hlt]
  · rw [withinWindow_comm]
    simp [hp j i hj hi hgt]

/-- Two local maxima within each other's window have the same vote count. -/
theorem voteCount_eq_of_localMaxima (grid : AccumulatorGrid) (r : Nat) (a b : LineCandidate)
    (ha : a ∈ grid.cellList.filter (isLocalMaximum grid r))
    (hb : b ∈ grid.cellList.filter (isLocalMaximum grid r))
    (hw : withinWindow r a b = true) : a.voteCount = b.voteCount := by
  rw [List.mem_filter] at ha hb
  have h1 := List.all_eq_true.mp ha.2 b hb.1
  have h2 := List.all_eq_true.mp hb.2 a ha.1
  rw [withinWindow_comm] at h2
  simp only [hw, Bool.not_true, Bool.false_or, decide_eq_true_eq] at h1 h2
  omega

/-- Suppression commutes with a filter that cannot tell apart two candidates
within each other's window. -/
theorem suppress_filter (r : Nat) (p : LineCandidate → Bool) (l accepted : List LineCandidate)
    (hinv : ∀ a ∈ accepted ++ l, ∀ b ∈ accepted ++ l, withinWindow r a b = true → p a = p b) :
    suppress r (accepted.filter p) (l.filter p) = (suppress r accepted l).filter p := by
  induction l generalizing accepted with
  | nil => simp [suppress]
  | cons c rest ih =>
    have hacc : ∀ a ∈ accepted ++ rest, ∀ b ∈ accepted ++ rest,
        withinWindow r a b = true → p a = p b := by
      intro a ha b hb
      apply hinv <;> simp only [List.mem_append, List.mem_cons] at * <;> tauto
    have hcons : ∀ a ∈ (c :: accepted) ++ rest, ∀ b ∈ (c :: accepted) ++ rest,
        withinWindow r a b = true → p a = p b := by
      intro a ha b hb
      apply hinv <;> simp only [List.mem_append, List.mem_cons] at * <;> tauto
    cases hpc : p c with
    | true =>
      have hany : (accepted.filter p).any (fun q => withinWindow r q c)
          = accepted.any (fun q => withinWindow r q c) := by
        rw [Bool.eq_iff_iff, List.any_eq_true, List.any_eq_true]
        constructor
        · rintro ⟨q, hq, hw⟩
          exact ⟨q, (List.mem_filter.mp hq).1, hw⟩
        · rintro ⟨q, hq, hw⟩
          refine ⟨q, List.mem_filter.mpr ⟨hq, ?_⟩, hw⟩
          rw [hinv q (by simp [hq]) c (by simp) hw, hpc]
      rw [List.filter_cons_of_pos hpc]
      simp only [suppress, hany]
      split
      · exact ih accepted hacc
      · have := ih (c :: accepted) hcons
        rwa [List.filter_cons_of_pos hpc] at this
    | false =>
      have hneg : ¬ (p c = true) := by simp [hpc]
      rw [List.filter_cons_of_neg hneg, ih accepted hacc]
      simp only [suppress]
      split
      · rfl
      · have := ih (c :: accepted) hcons
        rw [List.filter_cons_of_neg hneg] at this
        rw [← this, ih accepted hacc]

theorem filter_orderedInsert_of_neg (p : LineCandidate → Bool) (a : LineCandidate)
    (hpa : p a = false) (l : List LineCandidate) :
    (List.orderedInsert moreVotes a l).filter p = l.filter p := by
  induction l with
  | nil => simp [hpa]
  | cons b l ih =>
    simp only [List.orderedInsert]
    split
    · simp [hpa]
    · simp [List.filter_cons, ih]

theorem filter_orderedInsert_of_pos (p : LineCandidate → Bool)
    (hp : ∀ a b : LineCandidate, a.voteCount ≤ b.voteCount → p a = true → p b = true)
    (a : LineCandidate) (hpa : p a = true) (l : List LineCandidate)
    (hl : l.Sorted moreVotes) :
    (List.orderedInsert moreVotes a l).filter p = List.orderedInsert moreVotes a (l.filter p) := by
  induction l with
  | nil => simp [hpa]
  | cons b l ih =>
    have hl2 := List.sorted_cons.mp hl
    simp only [List.orderedInsert]
    split
    · rename_i hab
      rw [List.filter_cons_of_pos hpa]
      cases hpb : p b with
      | true =>
        rw [List.filter_cons_of_pos hpb]
        simp [List.orderedInsert, hab]
      | false =>
        have hneg : ¬ (p b = true) := by simp [hpb]
        rw [List.filter_cons_of_neg hneg]
        cases hf : l.filter p with
        | nil => simp
        | cons c cs =>
          have hc : c ∈ l := (List.mem_filter.mp (hf ▸ List.mem_cons_self c cs)).1
          have hbc : moreVotes b c := hl2.1 c hc
          have hac : moreVotes a c := by
            unfold moreVotes at *
            omega
          simp [List.orderedInsert, hac]
    · rename_i hab
      have hpb : p b = true := by
        apply hp a b _ hpa
        unfold moreVotes at hab
        omega
      rw [List.filter_cons_of_pos hpb, List.filter_cons_of_pos hpb, ih hl2.2]
      simp [List.orderedInsert, hab]

/-- Ordering by descending vote count commutes with a filter that holds from a
vote count upwards. -/
theorem filter_insertionSort (p : LineCandidate → Bool)
    (hp : ∀ a b : LineCandidate, a.voteCount ≤ b.voteCount → p a = true → p b = true)
    (l : List LineCandidate) :
    (l.filter p).insertionSort moreVotes = (l.insertionSort moreVotes).filter p := by
  induction l with
  | nil => simp
  | cons a l ih =>
    cases hpa : p a with
    | true =>
      rw [List.filter_cons_of_pos hpa, List.insertionSort, List.insertionSort, ih,
        filter_orderedInsert_of_pos p hp a hpa _ (List.sorted_insertionSort moreVotes l)]
    | false =>
      have hneg : ¬ (p a = true) := by simp [hpa]
      rw [List.filter_cons_of_neg hneg, List.insertionSort,
        filter_orderedInsert_of_neg p a hpa, ih]

/-- On a list in descending vote order, a filter that holds from a vote count
upwards keeps an initial segment. -/
theorem filter_eq_takeWhile_of_sorted (p : LineCandidate → Bool)
    (hp : ∀ a b : LineCandidate, a.voteCount ≤ b.voteCount → p a = true → p b = true)
    (l : List LineCandidate) (hl : l.Sorted moreVotes) :
    l.filter p = l.takeWhile p := by
  induction l with
  | nil => simp
  | cons a l ih =>
    have hl2 := List.sorted_cons.mp hl
    cases hpa : p a with
    | true => simp [List.filter_cons, List.takeWhile_cons, hpa, ih hl2.2]
    | false =>
      simp only [List.filter_cons, List.takeWhile_cons, hpa]
      simp only [Bool.false_eq_true, ↓reduceIte, List.filter_eq_nil_iff]
      intro c hc hpc
      have := hp c a (hl2.1 c hc) hpc
      simp [hpa] at this

theorem takeWhile_isPrefix_of_imp (p q : LineCandidate → Bool)
    (h : ∀ a, p a = true → q a = true) (l : List LineCandidate) :
    l.takeWhile p <+: l.takeWhile q := by
  induction l with
  | nil => simp
  | cons a l ih =>
    cases hpa : p a with
    | true =>
      simp only [List.takeWhile_cons, hpa, h a hpa, ↓reduceIte]
      exact (List.prefix_cons_inj a).mpr ih
    | false => simp [List.takeWhile_cons, hpa]

theorem exceedsMinVotes_mono (grid : AccumulatorGrid) (config : Config) (a b : LineCandidate)
    (hab : a.voteCount ≤ b.voteCount) (ha : exceedsMinVotes grid config a = true) :
    exceedsMinVotes grid config b = true := by
  simp only [exceedsMinVotes, decide_eq_true_eq] at *
  have : (a.voteCount : ℚ) ≤ (b.voteCount : ℚ) := by exact_mod_cast hab
  linarith

theorem voteThreshold_mono (grid : AccumulatorGrid) (config : Config) (m1 m2 : ℚ)
    (hle : m1 ≤ m2) :
    voteThreshold grid { config with minVotes := m1 }
      ≤ voteThreshold grid { config with minVotes := m2 } := by
  simp only [voteThreshold]
  split
  · exact mul_le_mul_of_nonneg_right hle (by positivity)
  · exact hle

/-- The peaks are an initial segment, cut at the vote threshold and at
`maxLines`, of a list that does not depend on `minVotes`. -/
theorem extractPeaks_eq_takeWhile (grid : AccumulatorGrid) (config : Config) :
    extractPeaks grid config =
      truncateTo config.maxLines
        (((suppress config.nmsRadius []
            (grid.cellList.filter (isLocalMaximum grid config.nmsRadius))).insertionSort
              moreVotes).takeWhile (exceedsMinVotes grid config)) := by
  have hcand : candidatePeaks grid config
      = (grid.cellList.filter (isLocalMaximum grid config.nmsRadius)).filter
          (exceedsMinVotes grid config) := by
    rw [List.filter_filter]
    rfl
  have hsupp := suppress_filter config.nmsRadius (exceedsMinVotes grid config)
    (grid.cellList.filter (isLocalMaximum grid config.nmsRadius)) []
    (by
      intro a ha b hb hw
      simp only [List.nil_append] at ha hb
      have hv := voteCount_eq_of_localMaxima grid config.nmsRadius a b ha hb hw
      simp only [exceedsMinVotes, hv])
  rw [List.filter_nil] at hsupp
  unfold extractPeaks
  rw [hcand, hsupp, filter_insertionSort _ (exceedsMinVotes_mono grid config),
    filter_eq_takeWhile_of_sorted _ (exceedsMinVotes_mono grid config) _
      (List.sorted_insertionSort moreVotes _)]

/-- Raising `minVotes` keeps an initial segment of the peaks. -/
theorem extractPeaks_isPrefix_of_le (grid : AccumulatorGrid) (config : Config) (m1 m2 : ℚ)
    (hle : m1 ≤ m2) :
    extractPeaks grid { config with minVotes := m2 }
      <+: extractPeaks grid { config with minVotes := m1 } := by
  rw [extractPeaks_eq_takeWhile, extractPeaks_eq_takeWhile]
  have hthr := voteThreshold_mono grid config m1 m2 hle
  have hpre := takeWhile_isPrefix_of_imp
    (exceedsMinVotes grid { config with minVotes := m2 })
    (exceedsMinVotes grid { config with minVotes := m1 })
    (by
      intro a ha
      simp only [exceedsMinVotes, decide_eq_true_eq] at *
      linarith)
    ((suppress config.nmsRadius []
        (grid.cellList.filter (isLocalMaximum grid config.nmsRadius))).insertionSort moreVotes)
  simp only [truncateTo]
  cases config.maxLines with
  | none => exact hpre
  | some n =>
    simp only
    rw [List.prefix_take_iff]
    exact ⟨(List.take_prefix _ _).trans hpre, by simp⟩

theorem validateConfig_of_le (config : Config) (m1 m2 : ℚ) (hle : m1 ≤ m2)
    (h1 : validateConfig { config with minVotes := m1 } = .ok ()) :
    validateConfig { config with minVotes := m2 } = .ok () := by
  simp only [validateConfig] at *
  split at h1
  · cases h1
  · rename_i hn
    rw [if_neg]
    intro hc
    apply hn
    rcases hc with h | h | h | h
    · exact Or.inl h
    · exact Or.inr (Or.inl h)
    · exact Or.inr (Or.inr (Or.inl (by linarith)))
    · exact Or.inr (Or.inr (Or.inr h))

/-- C7: for every fixed image and configuration and every `m1 ≤ m2`, when
`detectLines` returns a result with `minVotes = m1` it returns one with
`minVotes = m2` too, and that one has at most as many lines. -/
theorem detectLines_count_antitone (stages : Stages) (image : Image) (config : Config)
    (m1 m2 : ℚ) (r1 : DetectionResult) (hle : m1 ≤ m2)
    (h1 : detectLines stages image { config with minVotes := m1 } = .ok r1) :
    ∃ r2, detectLines stages image { config with minVotes := m2 } = .ok r2
      ∧ r2.lines.length ≤ r1.lines.length := by
  unfold detectLines at h1 ⊢
  cases hv : validateConfig { config with minVotes := m1 } with
  | error e => simp [hv] at h1
  | ok u =>
    cases u
    rw [validateConfig_of_le config m1 m2 hle hv]
    simp only [hv] at h1 ⊢
    cases he : stages.toEdgeMap image config.blurKernelSize config.gradientLowThreshold
        config.gradientHighThreshold with
    | error e => simp [he] at h1
    | ok edgeMap =>
      simp only [he] at h1 ⊢
      cases hg : stages.vote edgeMap config.thetaResolution config.rhoStep with
      | error e => simp [hg] at h1
      | ok grid =>
        simp only [hg] at h1 ⊢
        refine ⟨_, rfl, ?_⟩
        have hr1 := Except.ok.inj h1
        rw [← hr1]
        exact ((extractPeaks_isPrefix_of_le grid config m1 m2 hle).filterMap _).length_le

/-- The two peaks returned on `demoGrid` are outside each other's window. -/
theorem extractPeaks_no_duplicates_witness :
    ∃ (hi : 0 < (extractPeaks demoGrid demoConfig).length)
      (hj : 1 < (extractPeaks demoGrid demoConfig).length),
      extractPeaks demoGrid demoConfig
        = [{ rhoBin := 2, thetaBin := 2, voteCount := 7 },
           { rhoBin := 0, thetaBin := 1, voteCount := 5 }]
      ∧ 0 ≠ 1
      ∧ ¬ (|(((extractPeaks demoGrid demoConfig)[0]).rhoBin : Int)
            - (((extractPeaks demoGrid demoConfig)[1]).rhoBin : Int)|
              < (demoConfig.nmsRadius : Int)
          ∧ |(((extractPeaks demoGrid demoConfig)[0]).thetaBin : Int)
            - (((extractPeaks demoGrid demoConfig)[1]).thetaBin : Int)|
              < (demoConfig.nmsRadius : Int)) :=
  ⟨by decide!, by decide!, by decide!, by decide,
    extractPeaks_no_duplicates demoGrid demoConfig 0 1 (by decide!) (by decide!) (by decide)⟩

/-- The pipeline on `demoImage` with `minVotes = 1` returns two lines. -/
theorem detectLines_demo :
    detectLines demoStages demoImage { demoConfig with minVotes := 1 }
      = .ok { image := demoImage,
              lines := [{ x1 := 0, y1 := 2, x2 := 2, y2 := 2 },
                        { x1 := 0, y1 := 0, x2 := 2, y2 := 0 }] } := by
  have hcfg : ({ demoConfig with minVotes := 1 } : Config) = demoConfig := rfl
  have hv : validateConfig demoConfig = .ok () := by
    norm_num [validateConfig, demoConfig]
  have hp : extractPeaks demoGrid demoConfig
      = [{ rhoBin := 2, thetaBin := 2, voteCount := 7 },
         { rhoBin := 0, thetaBin := 1, voteCount := 5 }] := by decide!
  rw [hcfg]
  simp only [detectLines, hv]
  simp [demoStages, hp]

/-- Raising `minVotes` from 1 to 6 on `demoImage` does not add lines. -/
theorem detectLines_count_antitone_witness :
    (1 : ℚ) ≤ 6
    ∧ detectLines demoStages demoImage { demoConfig with minVotes := 1 }
        = .ok { image := demoImage,
                lines := [{ x1 := 0, y1 := 2, x2 := 2, y2 := 2 },
                          { x1 := 0, y1 := 0, x2 := 2, y2 := 0 }] }
    ∧ ∃ r2, detectLines demoStages demoImage { demoConfig with minVotes := 6 } = .ok r2
        ∧ r2.lines.length
          ≤ ([{ x1 := 0, y1 := 2, x2 := 2, y2 := 2 },
              { x1 := 0, y1 := 0, x2 := 2, y2 := 0 }] : List DetectedLine).length :=
  ⟨by norm_num, detectLines_demo,
    detectLines_count_antitone demoStages demoImage demoConfig 1 6 _ (by norm_num)
      detectLines_demo⟩

end Hough
